import Mathlib

set_option maxHeartbeats 1000000

/-!
Verification of the `gravity` WIT-to-Go code generator, centred on
`src/cmd/gravity/src/codegen/imports.rs` (`ImportAnalyzer` and
`ImportCodeGenerator`).  Rust data types of the external `wit_parser`
crate are embedded as plain inductive types; the resolver arenas are
embedded as lists indexed by `Nat` ids; `IndexMap`s are embedded as
association lists in declaration order.  Rust panics (`todo!`,
`panic!`, `.expect`, arena index out of bounds) are modelled as the
error branch of an `Except` carrying the panic message, so that a
function that can panic has type `Except RustPanic _`.
-/

namespace Gravity

/-- A Rust panic (from `todo!`, `panic!`, `.expect(..)` or an
out-of-bounds arena index), carrying the panic message. -/
structure RustPanic where
  msg : String
deriving DecidableEq, Repr

/-- Outcome of Rust code that may panic. -/
abbrev M (α : Type) : Type := Except RustPanic α

deriving instance DecidableEq for Except

/-! ## WIT-side data model (external `wit_parser` crate, embedded) -/

/-- `wit_parser::Type`: the WIT type universe. `id i` is `Type::Id`
referencing entry `i` of the type arena. -/
inductive WitType
  | bool | u8 | u16 | u32 | u64 | s8 | s16 | s32 | s64
  | f32 | f64 | char | string | errorContext
  | id (i : Nat)
deriving DecidableEq, Repr

/-- `wit_parser::TypeDefKind`.  `typeAlias t` is `TypeDefKind::Type(t)`. -/
inductive TypeDefKind
  | record (fields : List (String × WitType))
  | enum (cases : List String)
  | variant (cases : List (String × Option WitType))
  | flags (names : List String)
  | tuple (ts : List WitType)
  | option (t : WitType)
  | result (ok err : Option WitType)
  | list (t : WitType)
  | fixedLengthList (t : WitType) (n : Nat)
  | map (k v : WitType)
  | future (t : Option WitType)
  | stream (t : Option WitType)
  | resource
  | handle
  | typeAlias (t : WitType)
  | unknown
deriving DecidableEq, Repr

/-- `wit_parser::TypeDef` (the fields the analyzer reads). -/
structure TypeDef where
  name : Option String
  kind : TypeDefKind
deriving DecidableEq, Repr

/-- `wit_parser::Param`. -/
structure Param where
  name : String
  ty : WitType
deriving DecidableEq, Repr

/-- `wit_parser::Function` (the fields the analyzer reads). -/
structure Function where
  name : String
  params : List Param
  result : Option WitType
deriving DecidableEq, Repr

/-- `wit_parser::PackageName` (`{namespace, name, version?}`); the
`namespace` field is called `ns` here because `namespace` is a Lean
keyword. -/
structure PackageName where
  ns : String
  name : String
  version : Option String
deriving DecidableEq, Repr

/-- `wit_parser::Package` (the fields the analyzer reads). -/
structure Package where
  name : PackageName
deriving DecidableEq, Repr

/-- `wit_parser::Interface`: ordered maps are embedded as association
lists in declaration order.  `package` is a `PackageId` index. -/
structure Interface where
  name : Option String
  package : Option Nat
  functions : List (String × Function)
  types : List (String × Nat)
deriving DecidableEq, Repr

/-- `wit_parser::WorldItem`; constructors `Interface`, `Type` and
`Function` of the source are renamed with an `Item` suffix because
`Type` is a Lean keyword. -/
inductive WorldItem
  | interfaceItem (id : Nat)
  | typeItem (id : Nat)
  | functionItem (f : Function)
deriving DecidableEq, Repr

/-- `wit_parser::World` (the fields the analyzer reads): name and the
ordered import map. -/
structure World where
  name : String
  imports : List (String × WorldItem)
deriving DecidableEq, Repr

/-- `wit_parser::Resolve`: the arenas, as lists indexed by id. -/
structure Resolve where
  interfaces : List Interface
  types : List TypeDef
  packages : List Package
deriving DecidableEq, Repr

/-- `wit_bindgen_core::abi::WasmType`. -/
inductive WasmType
  | i32 | i64 | f32 | f64 | pointer | pointerOrI64 | length
deriving DecidableEq, Repr

/-- `wit_bindgen_core::abi::WasmSignature` (params and results of the
flattened core-wasm signature).  The flattening itself
(`Resolve::wasm_signature`) belongs to the external Canonical-ABI
library, so a signature is taken as input wherever the source calls
`self.resolve.wasm_signature(..)`. -/
structure WasmSignature where
  params : List WasmType
  results : List WasmType
deriving DecidableEq, Repr

/-! ## Go-side data model (crate modules absent from src/, modelled) -/

/-- Visibility tag of a minted Go identifier. -/
inductive Visibility
  | publicVis
  | privateVis
deriving DecidableEq, Repr

/-- Modelled from the spec: the identifier mint (§4.1).  `GoIdentifier`
keeps the visibility tag together with the raw IDL name; none of the
verified claims depends on the camel-case rendering itself. -/
structure GoIdentifier where
  vis : Visibility
  raw : String
deriving DecidableEq, Repr

/-- `GoIdentifier::public`. -/
def GoIdentifier.public (raw : String) : GoIdentifier :=
  ⟨.publicVis, raw⟩

/-- `GoIdentifier::private` (the apostrophe because `private` is a Lean
keyword). -/
def GoIdentifier.private' (raw : String) : GoIdentifier :=
  ⟨.privateVis, raw⟩

/-- Modelled from the spec: the Go type expressions produced by the
type resolver (`GoType` of the `go` module, absent from src/). -/
inductive GoType
  | bool | uint8 | uint16 | uint32 | uint64
  | int8 | int16 | int32 | int64
  | float32 | float64 | string
  | named (n : String)
deriving DecidableEq, Repr

/-- The Go source token a `GoType` renders to. -/
def GoType.render : GoType → String
  | .bool => "bool"
  | .uint8 => "uint8"
  | .uint16 => "uint16"
  | .uint32 => "uint32"
  | .uint64 => "uint64"
  | .int8 => "int8"
  | .int16 => "int16"
  | .int32 => "int32"
  | .int64 => "int64"
  | .float32 => "float32"
  | .float64 => "float64"
  | .string => "string"
  | .named n => n

/-- `GoResult` of the `go` module (absent from src/): the result part
of a Go function signature.  Only the `Empty` and `Anon` constructors
are used by the import generator. -/
inductive GoResult
  | empty
  | anon (t : GoType)
deriving DecidableEq, Repr

/-- Modelled from the spec: `resolve_wasm_type` (§4.2, absent from
src/): maps `I32`/`Length`/`Pointer` to unsigned 32-bit,
`I64`/`PointerOrI64` to unsigned 64-bit, `F32` to 32-bit float and
`F64` to 64-bit float. -/
def resolve_wasm_type : WasmType → GoType
  | .i32 => .uint32
  | .pointer => .uint32
  | .length => .uint32
  | .i64 => .uint64
  | .pointerOrI64 => .uint64
  | .f32 => .float32
  | .f64 => .float64

/-- Modelled from the spec: `resolve_type` (§4.2, absent from src/), a
total map from a WIT type to a Go type expression: primitives map to
the host type of the same value range, `string` to the host string,
and a `Type::Id` dereferences the arena, a `Record`/`Enum`/`Variant`/
`Flags` reference resolving to the named host type minted from the
type's IDL name, an alias recursing on the aliased type.  Recursion
through the arena is bounded by a fuel argument so that the function
is total on arbitrary (even cyclic) arenas, as the spec requires. -/
def resolve_type_fuel (r : Resolve) : Nat → WitType → GoType
  | _, .bool => .bool
  | _, .u8 => .uint8
  | _, .u16 => .uint16
  | _, .u32 => .uint32
  | _, .u64 => .uint64
  | _, .s8 => .int8
  | _, .s16 => .int16
  | _, .s32 => .int32
  | _, .s64 => .int64
  | _, .f32 => .float32
  | _, .f64 => .float64
  | _, .char => .int32
  | _, .string => .string
  | _, .errorContext => .named "ErrorContext"
  | 0, .id _ => .named ""
  | fuel + 1, .id i =>
    match r.types[i]? with
    | none => .named ""
    | some td =>
      match td.kind with
      | .typeAlias t => resolve_type_fuel r fuel t
      | _ => .named (td.name.getD "")

/-- `resolve_type(ty, resolve)`: the fuel is one more than the arena
size, enough to chase any acyclic alias chain. -/
def resolve_type (ty : WitType) (r : Resolve) : GoType :=
  resolve_type_fuel r (r.types.length + 1) ty

/-! ## IR (codegen/ir.rs, absent from src/, modelled from the spec §3) -/

/-- `TypeDefinition` of the IR:
`{Record, Enum, Variant, Alias, Primitive}`. -/
inductive TypeDefinition
  | record (fields : List (GoIdentifier × GoType))
  | enum (cases : List String)
  | variant (cases : List (String × Option GoType))
  | alias (target : GoType)
  | primitive
deriving DecidableEq, Repr

/-- `AnalyzedType` of the IR. -/
structure AnalyzedType where
  name : String
  go_type_name : GoIdentifier
  definition : TypeDefinition
deriving DecidableEq, Repr

/-- `Parameter` of the IR. -/
structure Parameter where
  name : GoIdentifier
  go_type : GoType
  wit_type : WitType
deriving DecidableEq, Repr

/-- `WitReturn` of the IR. -/
structure WitReturn where
  go_type : GoType
  wit_type : WitType
deriving DecidableEq, Repr

/-- `InterfaceMethod` of the IR. -/
structure InterfaceMethod where
  name : String
  go_method_name : GoIdentifier
  parameters : List Parameter
  return_type : Option WitReturn
  wit_function : Function
deriving DecidableEq, Repr

/-- `AnalyzedFunction` of the IR. -/
structure AnalyzedFunction where
  name : String
  go_name : GoIdentifier
  parameters : List Parameter
  return_type : Option GoType
deriving DecidableEq, Repr

/-- `AnalyzedInterface` of the IR. -/
structure AnalyzedInterface where
  name : String
  methods : List InterfaceMethod
  types : List AnalyzedType
  constructor_param_name : GoIdentifier
  go_interface_name : GoIdentifier
  wazero_module_name : String
deriving DecidableEq, Repr

/-- `AnalyzedImports` of the IR. -/
structure AnalyzedImports where
  interfaces : List AnalyzedInterface
  standalone_types : List AnalyzedType
  standalone_functions : List AnalyzedFunction
  factory_name : GoIdentifier
  instance_name : GoIdentifier
  constructor_name : GoIdentifier
deriving DecidableEq, Repr

/-! ## ImportAnalyzer (codegen/imports.rs lines 26-253) -/

namespace ImportAnalyzer

/-- `ImportAnalyzer::analyze_type_definition` (imports.rs 162-228).
Returns `ok none` for the skipped `TypeDefKind::Type(Type::Id)` arm,
`ok (some d)` for an analyzed definition, and a `RustPanic` error for
every arm the source leaves as `todo!(..)` or `panic!(..)`. -/
def analyze_type_definition (r : Resolve) (kind : TypeDefKind) :
    M (Option TypeDefinition) :=
  match kind with
  | .record fields =>
      .ok (some (.record (fields.map fun f =>
        (GoIdentifier.public f.1, resolve_type f.2 r))))
  | .enum cases => .ok (some (.enum cases))
  | .variant cases =>
      .ok (some (.variant (cases.map fun c =>
        (c.1, c.2.map fun t => resolve_type t r))))
  | .typeAlias (.id _) => .ok none
  | .typeAlias .string => .ok (some (.alias .string))
  | .typeAlias .bool => .error ⟨"TODO(#4): generate bool type alias"⟩
  | .typeAlias .u8 => .error ⟨"TODO(#4): generate u8 type alias"⟩
  | .typeAlias .u16 => .error ⟨"TODO(#4): generate u16 type alias"⟩
  | .typeAlias .u32 => .error ⟨"TODO(#4): generate u32 type alias"⟩
  | .typeAlias .u64 => .error ⟨"TODO(#4): generate u64 type alias"⟩
  | .typeAlias .s8 => .error ⟨"TODO(#4): generate s8 type alias"⟩
  | .typeAlias .s16 => .error ⟨"TODO(#4): generate s16 type alias"⟩
  | .typeAlias .s32 => .error ⟨"TODO(#4): generate s32 type alias"⟩
  | .typeAlias .s64 => .error ⟨"TODO(#4): generate s64 type alias"⟩
  | .typeAlias .f32 => .error ⟨"TODO(#4): generate f32 type alias"⟩
  | .typeAlias .f64 => .error ⟨"TODO(#4): generate f64 type alias"⟩
  | .typeAlias .char => .error ⟨"TODO(#4): generate char type alias"⟩
  | .typeAlias .errorContext =>
      .error ⟨"TODO(#4): generate error context definition"⟩
  | .fixedLengthList _ _ =>
      .error ⟨"TODO(#4): generate fixed length list definition"⟩
  | .option _ => .error ⟨"TODO(#4): generate option type definition"⟩
  | .result _ _ => .error ⟨"TODO(#4): generate result type definition"⟩
  | .list _ => .error ⟨"TODO(#4): generate list type definition"⟩
  | .future _ => .error ⟨"TODO(#4): generate future type definition"⟩
  | .stream _ => .error ⟨"TODO(#4): generate stream type definition"⟩
  | .flags _ => .error ⟨"TODO(#4):generate flags type definition"⟩
  | .tuple _ => .error ⟨"TODO(#4):generate tuple type definition"⟩
  | .resource => .error ⟨"TODO(#5): implement resources"⟩
  | .handle => .error ⟨"TODO(#5): implement resources"⟩
  | .map _ _ => .error ⟨"TODO(#4): generate map type definition"⟩
  | .unknown => .error ⟨"cannot generate Unknown type"⟩

/-- `ImportAnalyzer::analyze_type` (imports.rs 141-153). -/
def analyze_type (r : Resolve) (type_id : Nat) : M (Option AnalyzedType) :=
  match r.types[type_id]? with
  | none => .error ⟨"index out of bounds: types"⟩
  | some type_def =>
    match type_def.name with
    | none => .error ⟨"type missing name"⟩
    | some type_name =>
      match analyze_type_definition r type_def.kind with
      | .error e => .error e
      | .ok none => .ok none
      | .ok (some definition) =>
          .ok (some { name := type_name
                      go_type_name := GoIdentifier.public type_name
                      definition })

/-- `ImportAnalyzer::analyze_interface_method` (imports.rs 116-139). -/
def analyze_interface_method (r : Resolve) (func : Function) :
    InterfaceMethod :=
  { name := func.name
    go_method_name := GoIdentifier.public func.name
    parameters := func.params.map fun p =>
      { name := GoIdentifier.private' p.name
        go_type := resolve_type p.ty r
        wit_type := p.ty }
    return_type := func.result.map fun wit_type =>
      { go_type := resolve_type wit_type r, wit_type }
    wit_function := func }

/-- `ImportAnalyzer::analyze_function` (imports.rs 230-252). -/
def analyze_function (r : Resolve) (func : Function) : AnalyzedFunction :=
  { name := func.name
    go_name := GoIdentifier.public func.name
    parameters := func.params.map fun p =>
      { name := GoIdentifier.private' p.name
        go_type := resolve_type p.ty r
        wit_type := p.ty }
    return_type := func.result.map fun wit_type => resolve_type wit_type r }

/-- The `filter_map` over interface types with panic propagation
(imports.rs 85-90). -/
def analyzeTypes (r : Resolve) : List (String × Nat) → M (List AnalyzedType)
  | [] => .ok []
  | (_, id) :: rest =>
    match analyze_type r id with
    | .error e => .error e
    | .ok t? =>
      match analyzeTypes r rest with
      | .error e => .error e
      | .ok ts => .ok (t?.elim ts (· :: ts))

/-- The wasm module name computation of `analyze_interface`
(imports.rs 96-104): `"{ns}:{pkg}/{iface}"` when the interface has an
owning package, the bare interface name otherwise; a dangling package
id is an arena-index panic. -/
def wazeroModuleNameOf (r : Resolve) (iface : Interface)
    (interface_name : String) : M String :=
  match iface.package with
  | some package_id =>
    match r.packages[package_id]? with
    | none => .error ⟨"index out of bounds: packages"⟩
    | some package =>
        .ok (package.name.ns ++ ":" ++ package.name.name ++ "/" ++
          interface_name)
  | none => .ok interface_name

/-- `ImportAnalyzer::analyze_interface` (imports.rs 74-114). -/
def analyze_interface (r : Resolve) (w : World) (interface_id : Nat) :
    M AnalyzedInterface :=
  match r.interfaces[interface_id]? with
  | none => .error ⟨"index out of bounds: interfaces"⟩
  | some iface =>
    match iface.name with
    | none => .error ⟨"interface missing name"⟩
    | some interface_name =>
      let methods := iface.functions.map fun p =>
        analyze_interface_method r p.2
      match analyzeTypes r iface.types with
      | .error e => .error e
      | .ok types =>
        match wazeroModuleNameOf r iface interface_name with
        | .error e => .error e
        | .ok wazero_module_name =>
            .ok { name := interface_name
                  methods
                  types
                  constructor_param_name :=
                    GoIdentifier.private' interface_name
                  go_interface_name := GoIdentifier.public
                    ("i-" ++ w.name ++ "-" ++ interface_name)
                  wazero_module_name }

/-- The world-import loop of `ImportAnalyzer::analyze`
(imports.rs 43-57), collecting interfaces, standalone types and
standalone functions in declaration order. -/
def analyzeLoop (r : Resolve) (w : World) :
    List (String × WorldItem) →
    M (List AnalyzedInterface × List AnalyzedType × List AnalyzedFunction)
  | [] => .ok ([], [], [])
  | (_, item) :: rest =>
    match item with
    | .interfaceItem id =>
      match analyze_interface r w id with
      | .error e => .error e
      | .ok ai =>
        match analyzeLoop r w rest with
        | .error e => .error e
        | .ok (is, ts, fs) => .ok (ai :: is, ts, fs)
    | .typeItem id =>
      match analyze_type r id with
      | .error e => .error e
      | .ok t? =>
        match analyzeLoop r w rest with
        | .error e => .error e
        | .ok (is, ts, fs) => .ok (is, t?.elim ts (· :: ts), fs)
    | .functionItem f =>
      match analyzeLoop r w rest with
      | .error e => .error e
      | .ok (is, ts, fs) => .ok (is, ts, analyze_function r f :: fs)

/-- `ImportAnalyzer::analyze` (imports.rs 37-72). -/
def analyze (r : Resolve) (w : World) : M AnalyzedImports :=
  match analyzeLoop r w w.imports with
  | .error e => .error e
  | .ok (interfaces, standalone_types, standalone_functions) =>
      .ok { interfaces
            standalone_types
            standalone_functions
            factory_name := GoIdentifier.public (w.name ++ "-factory")
            instance_name := GoIdentifier.public (w.name ++ "-instance")
            constructor_name :=
              GoIdentifier.public ("new-" ++ w.name ++ "-factory") }

end ImportAnalyzer

/-! ## Host-function code generation (codegen/imports.rs 255-462) -/

/-- A Go statement of the generated host-function body.  The memory
reads, declarations and dispatch call are produced by the external
Canonical-ABI walker driving the visitor; only their shape matters
here. -/
inductive GoStmt
  | decl (name expr : String)
  | call (expr : String)
  | ret (expr : String)
deriving DecidableEq, Repr

/-- Whether a statement is a `return` statement. -/
def GoStmt.isRet : GoStmt → Bool
  | .ret _ => true
  | _ => false

/-- One parameter of the emitted host-function closure: the parameter
name and the rendered Go type token that follows it. -/
structure HostParam where
  name : String
  ty : String
deriving DecidableEq, Repr

/-- Modelled from the spec: the fresh-name counter of `Func`
(codegen/func.rs, absent from src/): temporaries `arg0`, `arg1`, …,
one per argument of the flattened Wasm signature (§4.4). -/
def argNames (n : Nat) : List String :=
  (List.range n).map fun i => "arg" ++ Nat.repr i

/-- The emitted host-function closure, structurally: its parameter
list, declared Go result, body statements and exported name. -/
structure HostClosure where
  params : List HostParam
  result : GoResult
  body : List GoStmt
  exportName : String
deriving DecidableEq, Repr

namespace ImportCodeGenerator

/-- The collected host-function parameters of
`generate_host_function_builder` (imports.rs 441-450): the two fixed
parameters `ctx` and `mod`, then one parameter per Wasm argument, each
declared with the literal type token `uint32`. -/
def hostParamsFor (nargs : Nat) : List HostParam :=
  [⟨"ctx", "context.Context"⟩, ⟨"mod", "api.Module"⟩]
    ++ (argNames nargs).map fun a => ⟨a, "uint32"⟩

/-- `ImportCodeGenerator::generate_host_function_builder`
(imports.rs 409-461).  `wasm_sig` stands for the call
`self.resolve.wasm_signature(AbiVariant::GuestImport, ..)` (external
Canonical-ABI library); `walkerStmts` and `retOperand` stand for the
statement buffer and result operand accumulated on the `Func` visitor
by the external `wit_bindgen_core::abi::call` walker.  The result is
`GoResult::Empty` for an empty Wasm result list, the `resolve_wasm_type`
mapping of the single result, and the multi-result arm is a `todo!`
panic.  Modelled from the spec for the absent codegen/func.rs: the
body is the accumulated statements plus a final `return` of the result
operand when there is a result (§4.4). -/
def generate_host_function_builder (func_name : String)
    (wasm_sig : WasmSignature) (walkerStmts : List GoStmt)
    (retOperand : String) : M HostClosure :=
  match wasm_sig.results with
  | [] =>
      .ok { params := hostParamsFor wasm_sig.params.length
            result := GoResult.empty
            body := walkerStmts
            exportName := func_name }
  | [t] =>
      .ok { params := hostParamsFor wasm_sig.params.length
            result := GoResult.anon (resolve_wasm_type t)
            body := walkerStmts ++ [GoStmt.ret retOperand]
            exportName := func_name }
  | _ :: _ :: _ =>
      .error ⟨"implement handling of wasm signatures with multiple results"⟩

/-- One import chain of `ImportCodeGenerator::import_chains`
(imports.rs 276-299): the error identifier `err{i}` minted from the
interface's position, the module name the builder is keyed by, the
exported method names chained in order, and the captured constructor
parameter. -/
structure Chain where
  errName : String
  moduleName : String
  methodNames : List String
  paramName : GoIdentifier
deriving DecidableEq, Repr

/-- The chain built for the interface at position `i`
(imports.rs 277-297). -/
def chainFor (i : Nat) (iface : AnalyzedInterface) : Chain :=
  { errName := "err" ++ Nat.repr i
    moduleName := iface.wazero_module_name
    methodNames := iface.methods.map (·.name)
    paramName := iface.constructor_param_name }

/-- A `BTreeMap<String, _>` modelled by its lookup function: `insert`
replaces any existing entry for the key. -/
def mapInsert (m : String → Option Chain) (k : String) (v : Chain) :
    String → Option Chain :=
  fun k' => if k' = k then some v else m k'

/-- `ImportCodeGenerator::import_chains` (imports.rs 273-303): one
chain per interface, inserted into the map keyed by
`wazero_module_name` in declaration order. -/
def import_chains (analyzed : AnalyzedImports) : String → Option Chain :=
  analyzed.interfaces.enum.foldl
    (fun m p => mapInsert m p.2.wazero_module_name (chainFor p.1 p.2))
    (fun _ => none)

/-! ### Enum emission (generate_type_definition, imports.rs 354-407) -/

/-- The emitted Go declarations for one enum type (imports.rs
366-386): the public interface type, the private `int` newtype, the
discriminator method name, and the constant names declared `= iota`
in case order. -/
structure EnumEmission where
  interfaceName : GoIdentifier
  newtypeName : GoIdentifier
  underlying : String
  funcName : GoIdentifier
  constants : List GoIdentifier
deriving DecidableEq, Repr

/-- What `generate_type_definition` emits, structurally, per
`TypeDefinition` variant (imports.rs 354-407). -/
inductive EmittedTypeDef
  | recordStruct (name : GoIdentifier) (fields : List (GoIdentifier × GoType))
  | enumBlock (e : EnumEmission)
  | aliasDecl (name : GoIdentifier) (target : GoType)
  | primitiveComment (name : String)
  | variantComment (name : String)
deriving DecidableEq, Repr

/-- `ImportCodeGenerator::generate_type_definition`
(imports.rs 354-407).  The enum arm emits `type <Name> interface`,
`type <name> int`, the `is-<name>` method, and one constant per case,
each written `<Case> <name> = iota`, in declared order. -/
def generate_type_definition (typ : AnalyzedType) : EmittedTypeDef :=
  match typ.definition with
  | .record fields => .recordStruct typ.go_type_name fields
  | .enum cases =>
      .enumBlock
        { interfaceName := typ.go_type_name
          newtypeName := GoIdentifier.private' typ.name
          underlying := "int"
          funcName := GoIdentifier.private' ("is-" ++ typ.name)
          constants := cases.map GoIdentifier.public }
  | .alias target => .aliasDecl typ.go_type_name target
  | .primitive => .primitiveComment typ.name
  | .variant _ => .variantComment typ.name

/-- Modelled from Go's `iota` rule: in a `const` block in which every
specification reads `= iota`, the i-th constant's value is `i`.  This
assigns each emitted constant its ordinal. -/
def constValues (consts : List GoIdentifier) : List (GoIdentifier × Nat) :=
  consts.enum.map fun p => (p.2, p.1)

end ImportCodeGenerator

/-! ## Rendered text of the closure's parameter list

The genco template (imports.rs 452-460) renders the collected
parameters joined by `,` + line break, followed by one final comma,
and closes the parenthesis on the next line. -/

/-- `"name type"`, the rendered form of one parameter. -/
def renderParam (p : HostParam) : String :=
  p.name ++ " " ++ p.ty

/-- Join character lists with a separator. -/
def joinSep (sep : List Char) : List (List Char) → List Char
  | [] => []
  | [x] => x
  | x :: y :: xs => x ++ sep ++ joinSep sep (y :: xs)

/-- The characters of the rendered parameter segment: parameters
joined by `",\n"`, then the final comma and line break emitted after
the loop (imports.rs 455). -/
def paramSegmentChars (ps : List HostParam) : List Char :=
  joinSep [',', '\n'] (ps.map fun p => (renderParam p).data) ++ [',', '\n']

/-- The characters of the closure's head, from `func(` to the closing
parenthesis. -/
def closureHeadChars (ps : List HostParam) : List Char :=
  "func(".data ++ ['\n'] ++ paramSegmentChars ps ++ [')']

/-- Whitespace characters of the emitted text. -/
def isWsChar (c : Char) : Bool :=
  c = ' ' || c = '\n' || c = '\t'

/-- Comma-separation scanner: `scanCommas inGap cs` is `false` exactly
when some comma is followed, across whitespace only, by another comma
(`inGap` records that a comma is pending).  "No consecutive commas"
(and no `", ,"`, and no `",\n\t\t,"`) is `scanCommas false cs = true`. -/
def scanCommas : Bool → List Char → Bool
  | _, [] => true
  | inGap, c :: rest =>
    if c = ',' then !inGap && scanCommas true rest
    else if isWsChar c then scanCommas inGap rest
    else scanCommas false rest

/-- Trailing-comma detector: `true` when some comma is followed, across
whitespace only, by a closing parenthesis. -/
def commaThenParen : List Char → Bool
  | [] => false
  | c :: rest =>
    if c = ',' then wsThenParen rest || commaThenParen rest
    else commaThenParen rest
where
  /-- Skip whitespace; `true` if the next character is `)`. -/
  wsThenParen : List Char → Bool
    | [] => false
    | c :: rest =>
      if c = ')' then true
      else if isWsChar c then wsThenParen rest
      else false

/-! ## Lemmas about rendered text -/

theorem digitChar_ne_comma (n : Nat) : Nat.digitChar n ≠ ',' := by
  rcases Nat.lt_or_ge n 16 with h | h
  · interval_cases n <;> decide
  · have h16 : Nat.digitChar n = '*' := by
      unfold Nat.digitChar
      repeat rw [if_neg (by omega)]
    rw [h16]; decide

theorem toDigitsCore_no_comma (fuel : Nat) :
    ∀ (n : Nat) (ds : List Char), ',' ∉ ds →
      ',' ∉ Nat.toDigitsCore 10 fuel n ds := by
  induction fuel with
  | zero => intro n ds h; simpa [Nat.toDigitsCore] using h
  | succ fuel ih =>
    intro n ds h
    have hcons : ',' ∉ Nat.digitChar (n % 10) :: ds := by
      intro hm
      rcases List.mem_cons.mp hm with h1 | h1
      · exact digitChar_ne_comma _ h1.symm
      · exact h h1
    rw [Nat.toDigitsCore]
    split
    · exact hcons
    · exact ih _ _ hcons

/-- The decimal rendering of a natural number contains no comma. -/
theorem repr_no_comma (n : Nat) : ',' ∉ (Nat.repr n).data := by
  have : (Nat.repr n).data = Nat.toDigitsCore 10 (n + 1) n [] := rfl
  rw [this]
  exact toDigitsCore_no_comma _ _ _ (by simp)

/-- From a clear state, comma-free text leaves the scanner clear. -/
theorem scanCommas_append_false (X : List Char) :
    ∀ (l : List Char), ',' ∉ l →
      scanCommas false (l ++ X) = scanCommas false X := by
  intro l
  induction l with
  | nil => intro _; rfl
  | cons c t ih =>
    intro h
    have hc : ¬c = ',' := by
      rintro rfl; exact h (List.mem_cons_self _ _)
    have ht : ',' ∉ t := fun hm => h (List.mem_cons_of_mem _ hm)
    rw [List.cons_append]
    show scanCommas false (c :: (t ++ X)) = scanCommas false X
    rw [scanCommas, if_neg hc]
    by_cases hw : isWsChar c = true
    · rw [if_pos hw]; exact ih ht
    · rw [if_neg hw]; exact ih ht

/-- A rendered parameter: some visible first character, then no comma.
Processing it resets the scanner to the clear state whatever state it
was in. -/
theorem scanCommas_entry (b : Bool) (c : Char) (t X : List Char)
    (hw : ¬isWsChar c = true) (hc : ¬c = ',') (ht : ',' ∉ t) :
    scanCommas b ((c :: t) ++ X) = scanCommas false X := by
  rw [List.cons_append]
  show scanCommas b (c :: (t ++ X)) = scanCommas false X
  rw [scanCommas, if_neg hc, if_neg hw]
  exact scanCommas_append_false X t ht

/-- A well-formed rendered parameter: nonempty, starting with a
visible character, containing no comma. -/
def entryOk (e : List Char) : Prop :=
  ∃ c t, e = c :: t ∧ ¬isWsChar c = true ∧ ¬c = ',' ∧ ',' ∉ t

/-- A nonempty list of well-formed entries joined by `",\n"`, closed by
the final comma, the line break and the parenthesis, never puts two
commas next to each other (across whitespace). -/
theorem scanCommas_entries (es : List (List Char)) :
    ∀ (e : List Char), (∀ x ∈ e :: es, entryOk x) → ∀ (b : Bool),
      scanCommas b (joinSep [',', '\n'] (e :: es) ++ [',', '\n', ')']) =
        true := by
  induction es with
  | nil =>
    intro e h b
    obtain ⟨c, t, rfl, hw, hc, ht⟩ := h e (by simp)
    rw [joinSep, scanCommas_entry b c t _ hw hc ht]
    decide
  | cons e' es' ih =>
    intro e h b
    obtain ⟨c, t, rfl, hw, hc, ht⟩ := h e (List.mem_cons_self _ _)
    rw [joinSep, List.append_assoc, List.append_assoc,
      scanCommas_entry b c t _ hw hc ht]
    show scanCommas false
      (',' :: '\n' :: (joinSep [',', '\n'] (e' :: es') ++ [',', '\n', ')'])) =
        true
    rw [scanCommas, if_pos rfl]
    show (!false && scanCommas true
      ('\n' :: (joinSep [',', '\n'] (e' :: es') ++ [',', '\n', ')']))) = true
    rw [scanCommas]
    simp only [Bool.not_false, Bool.true_and, if_neg (by decide : ¬ '\n' = ','),
      if_pos (by decide : isWsChar '\n' = true)]
    exact ih e' (fun x hx => h x (List.mem_cons_of_mem _ hx)) true

/-- The rendered `argN uint32` parameter is a well-formed entry. -/
theorem arg_entryOk (i : Nat) :
    entryOk (renderParam ⟨"arg" ++ Nat.repr i, "uint32"⟩).data := by
  refine ⟨'a', 'r' :: 'g' :: ((Nat.repr i).data ++ " uint32".data), ?_,
    by decide, by decide, ?_⟩
  · show (("arg" ++ Nat.repr i) ++ " " ++ "uint32").data = _
    rw [String.data_append, String.data_append, String.data_append]
    have h1 : "arg".data = ['a', 'r', 'g'] := by decide
    have h2 : (" uint32" : String).data = " ".data ++ "uint32".data := by decide
    rw [h1, h2]
    simp [List.append_assoc]
  · intro hm
    rcases List.mem_cons.mp hm with h1 | h1
    · exact absurd h1 (by decide)
    rcases List.mem_cons.mp h1 with h1 | h1
    · exact absurd h1 (by decide)
    rcases List.mem_append.mp h1 with h1 | h1
    · exact repr_no_comma i h1
    · exact absurd h1 (by decide)

/-- Every parameter the import generator collects renders to a
well-formed entry. -/
theorem hostParamsFor_entryOk (n : Nat) :
    ∀ p ∈ ImportCodeGenerator.hostParamsFor n,
      entryOk (renderParam p).data := by
  intro p hp
  rcases List.mem_append.mp hp with h2 | h2
  · rcases List.mem_cons.mp h2 with rfl | h2
    · exact ⟨'c', "tx context.Context".data, by decide, by decide, by decide,
        by decide⟩
    rcases List.mem_cons.mp h2 with rfl | h2
    · exact ⟨'m', "od api.Module".data, by decide, by decide, by decide,
        by decide⟩
    · exact absurd h2 (List.not_mem_nil p)
  · simp only [argNames, List.map_map, List.mem_map, List.mem_range] at h2
    obtain ⟨i, _, rfl⟩ := h2
    exact arg_entryOk i

/-- The head of every emitted import closure, from `func(` to the
closing parenthesis, contains no consecutive commas, for every Wasm
arity. -/
theorem hostParamsFor_noConsecCommas (n : Nat) :
    scanCommas false
      (closureHeadChars (ImportCodeGenerator.hostParamsFor n)) = true := by
  have hform : closureHeadChars (ImportCodeGenerator.hostParamsFor n) =
      "func(\n".data ++
        (joinSep [',', '\n']
          ((ImportCodeGenerator.hostParamsFor n).map
            fun p => (renderParam p).data) ++ [',', '\n', ')']) := by
    show "func(".data ++ ['\n'] ++
        (joinSep _ _ ++ [',', '\n']) ++ [')'] = _
    have h1 : "func(\n".data = "func(".data ++ ['\n'] := by decide
    rw [h1]
    simp [List.append_assoc]
  rw [hform, scanCommas_append_false _ _ (by decide)]
  have hcons : (ImportCodeGenerator.hostParamsFor n).map
      (fun p => (renderParam p).data) =
      (renderParam ⟨"ctx", "context.Context"⟩).data ::
        ((ImportCodeGenerator.hostParamsFor n).tail.map
          fun p => (renderParam p).data) := by
    rfl
  rw [hcons]
  refine scanCommas_entries _ _ ?_ false
  intro x hx
  rcases List.mem_cons.mp hx with rfl | hx
  · exact hostParamsFor_entryOk n _ (by
      simp [ImportCodeGenerator.hostParamsFor])
  · rcases List.mem_map.mp hx with ⟨p, hp, rfl⟩
    exact hostParamsFor_entryOk n p (by
      exact List.mem_of_mem_tail hp)

/-- The parameter list of every successfully generated host closure is
`hostParamsFor` of the Wasm arity. -/
theorem generate_params_eq (func_name : String) (sig : WasmSignature)
    (stmts : List GoStmt) (retOp : String) (c : HostClosure)
    (h : ImportCodeGenerator.generate_host_function_builder func_name sig
      stmts retOp = .ok c) :
    c.params = ImportCodeGenerator.hostParamsFor sig.params.length := by
  unfold ImportCodeGenerator.generate_host_function_builder at h
  rcases hr : sig.results with _ | ⟨t, _ | ⟨t2, ts⟩⟩ <;> rw [hr] at h
  · cases h; rfl
  · cases h; rfl
  · cases h

/-! ## The claims -/

/-- C1 (the Wasm-argument parameter types): for an imported function
whose Wasm signature has a single `I64` argument, the generated
host-function closure declares the argument parameter with the fixed
type token `uint32` (imports.rs 449), not `uint64`, the image of `I64`
under the `resolve_wasm_type` mapping that the claim (and spec §4.4)
prescribes for each argument.  The mapping is applied only to the
result type. -/
theorem c1_i64_argument_emitted_as_uint32 :
    ImportCodeGenerator.generate_host_function_builder "store"
        ⟨[WasmType.i64], []⟩ [] "ret0" =
      .ok { params := [⟨"ctx", "context.Context"⟩, ⟨"mod", "api.Module"⟩,
              ⟨"arg0", "uint32"⟩],
            result := GoResult.empty, body := [], exportName := "store" }
    ∧ (resolve_wasm_type WasmType.i64).render = "uint64"
    ∧ ("uint32" : String) ≠ "uint64" := by
  refine ⟨by decide, rfl, by decide⟩

/-- C3 counterexample: for the zero-parameter import `ping`, the
rendered closure head ends its parameter list with a comma after
`mod api.Module`, separated from the closing parenthesis by the line
break only — the emitted list does carry a (Go-legal) trailing comma
before the closing parenthesis. -/
theorem c3_trailing_comma_exists :
    ImportCodeGenerator.generate_host_function_builder "ping" ⟨[], []⟩ [] "" =
      .ok { params := [⟨"ctx", "context.Context"⟩, ⟨"mod", "api.Module"⟩],
            result := GoResult.empty, body := [], exportName := "ping" }
    ∧ commaThenParen (closureHeadChars
        [⟨"ctx", "context.Context"⟩, ⟨"mod", "api.Module"⟩]) = true := by
  exact ⟨by decide, by decide⟩

/-- C3 (amended): for every imported function, the emitted closure's
parameter list contains exactly 2 + wasm_arity entries — `ctx`,
`module-handle`, then one per Wasm argument — with no consecutive
commas (every comma is followed by a further parameter or, for the
final Go-legal trailing comma, by the line break before the closing
parenthesis); an import with zero Wasm parameters and zero results
still emits exactly the two fixed parameters. -/
theorem c3_param_list_shape (func_name : String) (sig : WasmSignature)
    (stmts : List GoStmt) (retOp : String) (c : HostClosure)
    (h : ImportCodeGenerator.generate_host_function_builder func_name sig
      stmts retOp = .ok c) :
    c.params.length = 2 + sig.params.length
    ∧ c.params.take 2 = [⟨"ctx", "context.Context"⟩, ⟨"mod", "api.Module"⟩]
    ∧ scanCommas false (closureHeadChars c.params) = true
    ∧ (sig.params = [] →
        c.params = [⟨"ctx", "context.Context"⟩, ⟨"mod", "api.Module"⟩]) := by
  have hp := generate_params_eq func_name sig stmts retOp c h
  refine ⟨?_, ?_, ?_, ?_⟩
  · rw [hp]
    simp [ImportCodeGenerator.hostParamsFor, argNames]
    omega
  · rw [hp]; rfl
  · rw [hp]; exact hostParamsFor_noConsecCommas sig.params.length
  · intro h0
    rw [hp, h0]
    rfl

/-- C3 witness: the amended shape holds of the concrete zero-parameter
import. -/
theorem c3_param_list_shape_witness :
    scanCommas false (closureHeadChars
      ({ params := [⟨"ctx", "context.Context"⟩, ⟨"mod", "api.Module"⟩],
         result := GoResult.empty, body := [],
         exportName := "ping" } : HostClosure).params) = true :=
  (c3_param_list_shape "ping" ⟨[], []⟩ [] ""
    { params := [⟨"ctx", "context.Context"⟩, ⟨"mod", "api.Module"⟩],
      result := GoResult.empty, body := [], exportName := "ping" }
    (by decide)).2.2.1

/-- C4: for every imported function whose Wasm signature has exactly
one result, the emitted closure declares as its return the
`resolve_wasm_type` mapping of that result — a single `i32` result
(bool, enum, char) surfaces as an unsigned 32-bit return, never
empty — and the body contains a `return` statement; a signature with
zero results produces the empty host return. -/
theorem c4_return_shape (func_name : String) (sig : WasmSignature)
    (stmts : List GoStmt) (retOp : String) (c : HostClosure)
    (h : ImportCodeGenerator.generate_host_function_builder func_name sig
      stmts retOp = .ok c) :
    (∀ t, sig.results = [t] →
      c.result = GoResult.anon (resolve_wasm_type t)
        ∧ c.body.any GoStmt.isRet = true)
    ∧ (sig.results = [] → c.result = GoResult.empty) := by
  unfold ImportCodeGenerator.generate_host_function_builder at h
  constructor
  · intro t ht
    rw [ht] at h
    cases h
    constructor
    · rfl
    · simp [GoStmt.isRet]
  · intro h0
    rw [h0] at h
    cases h
    rfl

/-- C4 witness: the bool-returning import `is-valid` (Wasm signature
`(i32, i32) -> i32`, a lowered string argument) gets a `uint32` return
and a `return` statement. -/
theorem c4_return_shape_witness :
    ({ params := ImportCodeGenerator.hostParamsFor 2,
       result := GoResult.anon GoType.uint32,
       body := [GoStmt.ret "ret0"],
       exportName := "is-valid" } : HostClosure).result =
        GoResult.anon (resolve_wasm_type WasmType.i32)
    ∧ ({ params := ImportCodeGenerator.hostParamsFor 2,
         result := GoResult.anon GoType.uint32,
         body := [GoStmt.ret "ret0"],
         exportName := "is-valid" } : HostClosure).body.any GoStmt.isRet
        = true :=
  (c4_return_shape "is-valid" ⟨[WasmType.i32, WasmType.i32], [WasmType.i32]⟩
    [] "ret0"
    { params := ImportCodeGenerator.hostParamsFor 2,
      result := GoResult.anon GoType.uint32,
      body := [GoStmt.ret "ret0"],
      exportName := "is-valid" }
    (by decide)).1 WasmType.i32 rfl

/-- Whether a type-analysis outcome is a produced
`TypeDefinition::Alias`. -/
def producesAlias : M (Option TypeDefinition) → Bool
  | .ok (some (.alias _)) => true
  | _ => false

/-- C2 counterexample: a `Type(bool)` alias — an alias over a
primitive — does not produce a `TypeDefinition::Alias`: that arm of
the analyzer is an unimplemented `todo!` panic. -/
theorem c2_bool_alias_produces_no_alias :
    producesAlias (ImportAnalyzer.analyze_type_definition ⟨[], [], []⟩
      (.typeAlias .bool)) = false
    ∧ ImportAnalyzer.analyze_type_definition ⟨[], [], []⟩ (.typeAlias .bool) =
        .error ⟨"TODO(#4): generate bool type alias"⟩ :=
  ⟨rfl, rfl⟩

/-- C2 (amended): the type analysis, applied to a named type
definition of kind `Type(Type::Id)`, produces no analyzed type at all
(so no self-referential alias such as `type Foo = Foo` appears); a
`Type(string)` alias produces a `TypeDefinition::Alias`; an alias over
any other primitive produces no `Alias` either but aborts in an
unimplemented-arm panic. -/
theorem c2_alias_analysis (r : Resolve) (tid : Nat) (td : TypeDef)
    (j : Nat) (nm : String)
    (h : r.types[tid]? = some td)
    (hn : td.name = some nm)
    (hk : td.kind = .typeAlias (.id j)) :
    ImportAnalyzer.analyze_type r tid = .ok none
    ∧ ImportAnalyzer.analyze_type_definition r (.typeAlias .string) =
        .ok (some (.alias .string))
    ∧ ∀ p ∈ [WitType.bool, .u8, .u16, .u32, .u64, .s8, .s16, .s32, .s64,
        .f32, .f64, .char, .errorContext],
        ∃ m, ImportAnalyzer.analyze_type_definition r (.typeAlias p) =
          .error m := by
  refine ⟨?_, rfl, ?_⟩
  · have htd : td = ⟨some nm, .typeAlias (.id j)⟩ := by
      obtain ⟨n?, k⟩ := td
      simp only [TypeDef.mk.injEq]
      exact ⟨hn, hk⟩
    subst htd
    unfold ImportAnalyzer.analyze_type
    rw [h]
    rfl
  · intro p hp
    fin_cases hp <;> exact ⟨_, rfl⟩

/-- C2 witness: a self-referential named alias `type foo = foo`
(a `Type(Type::Id)` pointing at its own arena slot) is skipped: no
analyzed type is produced. -/
theorem c2_alias_analysis_witness :
    ImportAnalyzer.analyze_type
      ⟨[], [⟨some "foo", .typeAlias (.id 0)⟩], []⟩ 0 = .ok none :=
  (c2_alias_analysis ⟨[], [⟨some "foo", .typeAlias (.id 0)⟩], []⟩ 0
    ⟨some "foo", .typeAlias (.id 0)⟩ 0 "foo" rfl rfl rfl).1

/-- Modelled from the spec: the Canonical-ABI discriminant rule the
claim refers to — the discriminant of an enum with `n` cases is the
smallest of `u8`/`u16`/`u32` that can hold `n` values (and its
flattened core representation is `i32`). -/
def abiDiscriminantType (ncases : Nat) : String :=
  if ncases ≤ 256 then "uint8"
  else if ncases ≤ 65536 then "uint16"
  else "uint32"

/-- The underlying Go type token of an emitted enum block, if any. -/
def enumUnderlyingOf : ImportCodeGenerator.EmittedTypeDef → Option String
  | .enumBlock e => some e.underlying
  | _ => none

/-- C5 counterexample: the two-case enum `status` is emitted as a
newtype over the platform-dependent Go `int` type, which is none of
the fixed-width integers the Canonical-ABI discriminant rules name
(neither the `uint8` storage width for two cases, nor the `uint16` or
`uint32` widths, nor the `i32` flattened form). -/
theorem c5_enum_underlying_not_abi_width :
    enumUnderlyingOf (ImportCodeGenerator.generate_type_definition
      ⟨"status", GoIdentifier.public "status", .enum ["ok", "error"]⟩) =
        some "int"
    ∧ abiDiscriminantType 2 = "uint8"
    ∧ ("int" : String) ≠ "uint8"
    ∧ ("int" : String) ≠ "uint16"
    ∧ ("int" : String) ≠ "uint32"
    ∧ ("int" : String) ≠ "int32" := by
  exact ⟨rfl, rfl, by decide, by decide, by decide, by decide⟩

/-- C5 (amended): for every enum type with N cases the generator emits
exactly N constants — the public identifiers of the cases in declared
order — each declared `= iota`, so carrying (per Go's `iota` rule) the
ordinal values 0 through N-1; the cases map to a newtype over the
host's platform `int` type, not over an integer whose width matches
the Canonical-ABI discriminant rules. -/
theorem c5_enum_emission (typ : AnalyzedType) (cases : List String)
    (h : typ.definition = .enum cases) :
    ImportCodeGenerator.generate_type_definition typ =
      .enumBlock
        { interfaceName := typ.go_type_name
          newtypeName := GoIdentifier.private' typ.name
          underlying := "int"
          funcName := GoIdentifier.private' ("is-" ++ typ.name)
          constants := cases.map GoIdentifier.public }
    ∧ (cases.map GoIdentifier.public).length = cases.length
    ∧ (ImportCodeGenerator.constValues
        (cases.map GoIdentifier.public)).map (·.2) =
        List.range cases.length
    ∧ (ImportCodeGenerator.constValues
        (cases.map GoIdentifier.public)).map (·.1) =
        cases.map GoIdentifier.public := by
  obtain ⟨nm, gtn, d⟩ := typ
  cases h
  refine ⟨rfl, List.length_map _ _, ?_, ?_⟩
  · show ((cases.map GoIdentifier.public).enum.map
      (fun p => (p.2, p.1))).map (·.2) = _
    rw [List.map_map]
    have : ((·.2) ∘ fun p : Nat × GoIdentifier => (p.2, p.1)) = Prod.fst := by
      funext p; rfl
    rw [this, List.enum_map_fst, List.length_map]
  · show ((cases.map GoIdentifier.public).enum.map
      (fun p => (p.2, p.1))).map (·.1) = _
    rw [List.map_map]
    have : ((·.1) ∘ fun p : Nat × GoIdentifier => (p.2, p.1)) = Prod.snd := by
      funext p; rfl
    rw [this, List.enum_map_snd]

/-- C5 witness: the `status` enum's two constants carry the iota
values 0 and 1 in declared order. -/
theorem c5_enum_emission_witness :
    (ImportCodeGenerator.constValues
      (["ok", "error"].map GoIdentifier.public)).map (·.2) =
      List.range (["ok", "error"] : List String).length :=
  (c5_enum_emission
    ⟨"status", GoIdentifier.public "status", .enum ["ok", "error"]⟩
    ["ok", "error"] rfl).2.2.1

/-- The type-definition kinds the spec's §9 lists as TODO: list,
option, result, flags, tuple, fixed-length list, map, future, stream,
resource, handle, error-context, char, and primitive aliases other
than string. -/
def todoKind : TypeDefKind → Bool
  | .list _ => true
  | .option _ => true
  | .result _ _ => true
  | .flags _ => true
  | .tuple _ => true
  | .fixedLengthList _ _ => true
  | .map _ _ => true
  | .future _ => true
  | .stream _ => true
  | .resource => true
  | .handle => true
  | .typeAlias .string => false
  | .typeAlias (.id _) => false
  | .typeAlias _ => true
  | _ => false

/-- The `todo!` message of each unimplemented type-definition arm
(imports.rs 198-225); the empty string for implemented kinds. -/
def todoPanicMsg : TypeDefKind → String
  | .list _ => "TODO(#4): generate list type definition"
  | .option _ => "TODO(#4): generate option type definition"
  | .result _ _ => "TODO(#4): generate result type definition"
  | .flags _ => "TODO(#4):generate flags type definition"
  | .tuple _ => "TODO(#4):generate tuple type definition"
  | .fixedLengthList _ _ => "TODO(#4): generate fixed length list definition"
  | .map _ _ => "TODO(#4): generate map type definition"
  | .future _ => "TODO(#4): generate future type definition"
  | .stream _ => "TODO(#4): generate stream type definition"
  | .resource => "TODO(#5): implement resources"
  | .handle => "TODO(#5): implement resources"
  | .typeAlias .bool => "TODO(#4): generate bool type alias"
  | .typeAlias .u8 => "TODO(#4): generate u8 type alias"
  | .typeAlias .u16 => "TODO(#4): generate u16 type alias"
  | .typeAlias .u32 => "TODO(#4): generate u32 type alias"
  | .typeAlias .u64 => "TODO(#4): generate u64 type alias"
  | .typeAlias .s8 => "TODO(#4): generate s8 type alias"
  | .typeAlias .s16 => "TODO(#4): generate s16 type alias"
  | .typeAlias .s32 => "TODO(#4): generate s32 type alias"
  | .typeAlias .s64 => "TODO(#4): generate s64 type alias"
  | .typeAlias .f32 => "TODO(#4): generate f32 type alias"
  | .typeAlias .f64 => "TODO(#4): generate f64 type alias"
  | .typeAlias .char => "TODO(#4): generate char type alias"
  | .typeAlias .errorContext => "TODO(#4): generate error context definition"
  | _ => ""

/-- C6 counterexample: for a world containing an `option` type
definition, the generation pass does not return an error value — the
source has no `UnsupportedTypeDef` (or any other) error type on this
path, its return type being `Option<TypeDefinition>` — it aborts in a
`todo!` panic, here the `RustPanic` branch carrying the literal panic
message. -/
theorem c6_option_aborts_by_panic :
    ImportAnalyzer.analyze_type_definition ⟨[], [], []⟩
        (.option .u32) =
      .error (RustPanic.mk "TODO(#4): generate option type definition")
    ∧ ImportAnalyzer.analyze
        ⟨[], [⟨some "opt", .option .u32⟩], []⟩
        ⟨"w", [("opt", .typeItem 0)]⟩ =
      .error (RustPanic.mk "TODO(#4): generate option type definition") :=
  ⟨rfl, rfl⟩

/-- C6 (amended): for every type definition of a kind listed as TODO
in §9, the analysis aborts with the unimplemented-arm panic carrying
that arm's message — not by returning an `UnsupportedTypeDef` error
value, which the source does not define — and the abort is fatal to
the generation pass: the world loop stops at the first aborting item
and emits nothing. -/
theorem c6_todo_kinds_abort (r : Resolve) (k : TypeDefKind)
    (h : todoKind k = true) :
    ImportAnalyzer.analyze_type_definition r k = .error ⟨todoPanicMsg k⟩
    ∧ ∀ (w : World) (key : String) (id : Nat)
        (rest : List (String × WorldItem)) (e : RustPanic),
        ImportAnalyzer.analyze_type r id = .error e →
        ImportAnalyzer.analyzeLoop r w ((key, .typeItem id) :: rest) =
          .error e := by
  constructor
  · cases k
    case typeAlias t =>
      cases t <;> first | rfl | exact absurd h (by simp [todoKind])
    all_goals first | rfl | exact absurd h (by simp [todoKind])
  · intro w key id rest e he
    simp only [ImportAnalyzer.analyzeLoop, he]

/-- C6 witness: the `option` kind aborts with its `todo!` panic
message. -/
theorem c6_todo_kinds_abort_witness :
    ImportAnalyzer.analyze_type_definition ⟨[], [], []⟩
        (TypeDefKind.option .u32) =
      .error ⟨todoPanicMsg (TypeDefKind.option .u32)⟩ :=
  (c6_todo_kinds_abort ⟨[], [], []⟩ (TypeDefKind.option .u32) rfl).1

/-- The Wasm module name the spec's words prescribe for an analyzed
interface (refinement reference): `"{ns}:{pkg}/{iface}"` when the
interface has an owning package, the bare interface name otherwise. -/
def specWasmModuleName (r : Resolve) (iface : Interface)
    (ifaceName : String) : Option String :=
  match iface.package with
  | some pid => (r.packages[pid]?).map fun p =>
      p.name.ns ++ ":" ++ p.name.name ++ "/" ++ ifaceName
  | none => some ifaceName

/-- C7: for every analyzed interface, the computed Wasm module name
equals `"{namespace}:{package}/{interface}"` when the interface has an
owning package, and the bare interface name otherwise. -/
theorem c7_wasm_module_name (r : Resolve) (w : World) (iid : Nat)
    (iface : Interface) (nm : String) (ai : AnalyzedInterface)
    (hi : r.interfaces[iid]? = some iface)
    (hn : iface.name = some nm)
    (hok : ImportAnalyzer.analyze_interface r w iid = .ok ai) :
    some ai.wazero_module_name = specWasmModuleName r iface nm := by
  unfold ImportAnalyzer.analyze_interface at hok
  simp only [hi, hn] at hok
  cases ht : ImportAnalyzer.analyzeTypes r iface.types with
  | error e => simp only [ht] at hok; exact Except.noConfusion hok
  | ok types =>
    simp only [ht] at hok
    cases hm : ImportAnalyzer.wazeroModuleNameOf r iface nm with
    | error e => simp only [hm] at hok; exact Except.noConfusion hok
    | ok mn =>
      simp only [hm] at hok
      cases hok
      unfold ImportAnalyzer.wazeroModuleNameOf at hm
      unfold specWasmModuleName
      obtain ⟨nme, pkg, fns, tys⟩ := iface
      cases pkg with
      | none =>
        dsimp only at hm ⊢
        cases hm
        rfl
      | some pid =>
        dsimp only at hm ⊢
        cases hq : r.packages[pid]? with
        | none => rw [hq] at hm; exact Except.noConfusion hm
        | some p =>
          rw [hq] at hm
          cases hm
          rfl

/-- C7 witness: the packaged `logger` interface of package `test:pkg`
gets Wasm module name `test:pkg/logger`. -/
theorem c7_wasm_module_name_witness :
    some
      ({ name := "logger", methods := [], types := [],
         constructor_param_name := GoIdentifier.private' "logger",
         go_interface_name := GoIdentifier.public "i-test-world-logger",
         wazero_module_name := "test:pkg/logger" } :
         AnalyzedInterface).wazero_module_name =
      specWasmModuleName
        ⟨[⟨some "logger", some 0, [], []⟩], [], [⟨⟨"test", "pkg", none⟩⟩]⟩
        ⟨some "logger", some 0, [], []⟩ "logger" :=
  c7_wasm_module_name
    ⟨[⟨some "logger", some 0, [], []⟩], [], [⟨⟨"test", "pkg", none⟩⟩]⟩
    ⟨"test-world", [("logger", .interfaceItem 0)]⟩ 0
    ⟨some "logger", some 0, [], []⟩ "logger"
    { name := "logger", methods := [], types := [],
      constructor_param_name := GoIdentifier.private' "logger",
      go_interface_name := GoIdentifier.public "i-test-world-logger",
      wazero_module_name := "test:pkg/logger" }
    rfl rfl (by decide)

/-- Lookup after folding `mapInsert` over an enumerated interface
list: the chain of the last interface bearing the looked-up module
name, else whatever the accumulator maps the name to. -/
theorem foldl_mapInsert_lookup (m : String) :
    ∀ (l : List (Nat × AnalyzedInterface))
      (acc : String → Option ImportCodeGenerator.Chain),
      (l.foldl (fun mm p =>
        ImportCodeGenerator.mapInsert mm p.2.wazero_module_name
          (ImportCodeGenerator.chainFor p.1 p.2)) acc) m =
      ((l.filter fun p => p.2.wazero_module_name = m).getLast?).elim (acc m)
        (fun p => some (ImportCodeGenerator.chainFor p.1 p.2)) := by
  intro l
  induction l with
  | nil => intro acc; rfl
  | cons hd tl ih =>
    intro acc
    rw [List.foldl_cons, ih]
    by_cases hm : hd.2.wazero_module_name = m
    · rw [List.filter_cons_of_pos (by simpa using hm)]
      cases h2 : (tl.filter fun p => p.2.wazero_module_name = m) with
      | nil =>
        show (([] : List (Nat × AnalyzedInterface)).getLast?).elim _ _ = _
        simp only [List.getLast?_nil, List.getLast?_singleton, Option.elim]
        unfold ImportCodeGenerator.mapInsert
        rw [if_pos hm.symm]
      | cons x xs =>
        rw [List.getLast?_cons_cons]
        obtain ⟨y, hy⟩ := Option.isSome_iff_exists.mp
          (List.getLast?_isSome.mpr (List.cons_ne_nil x xs))
        rw [hy]
        rfl
    · rw [List.filter_cons_of_neg (by simpa using hm)]
      have hacc : ImportCodeGenerator.mapInsert acc hd.2.wazero_module_name
          (ImportCodeGenerator.chainFor hd.1 hd.2) m = acc m := by
        unfold ImportCodeGenerator.mapInsert
        exact if_neg (fun h : m = hd.2.wazero_module_name => hm h.symm)
      rw [hacc]

/-- C10: the import-chain builder yields a map keyed by Wasm module
name holding exactly one chain per distinct name: a lookup returns the
chain of the **last** analyzed interface bearing that
`wazero_module_name` — so when two imported interfaces compute the
same name, the chain built for the later interface replaces the
earlier one's, whose host functions are dropped from the result — and
a name is mapped at all exactly when some analyzed interface bears
it. -/
theorem c10_import_chains_last_wins (a : AnalyzedImports) (m : String) :
    ImportCodeGenerator.import_chains a m =
      ((a.interfaces.enum.filter
        fun p => p.2.wazero_module_name = m).getLast?).elim
        none (fun p => some (ImportCodeGenerator.chainFor p.1 p.2))
    ∧ ((ImportCodeGenerator.import_chains a m ≠ none) ↔
        m ∈ a.interfaces.map (·.wazero_module_name)) := by
  have hmain : ImportCodeGenerator.import_chains a m =
      ((a.interfaces.enum.filter
        fun p => p.2.wazero_module_name = m).getLast?).elim
        none (fun p => some (ImportCodeGenerator.chainFor p.1 p.2)) := by
    unfold ImportCodeGenerator.import_chains
    rw [foldl_mapInsert_lookup]
  refine ⟨hmain, ?_⟩
  have hiff : ((a.interfaces.enum.filter
      fun p => p.2.wazero_module_name = m) ≠ []) ↔
      m ∈ a.interfaces.map (·.wazero_module_name) := by
    constructor
    · intro hne
      rcases hcase : (a.interfaces.enum.filter
          fun p => p.2.wazero_module_name = m) with _ | ⟨x, xs⟩
      · exact absurd hcase hne
      · have hx : x ∈ (a.interfaces.enum.filter
            fun p => p.2.wazero_module_name = m) := by
          rw [hcase]; exact List.mem_cons_self _ _
        have hxf := List.mem_filter.mp hx
        refine List.mem_map.mpr ⟨x.2, ?_, by simpa using hxf.2⟩
        rw [← List.enum_map_snd a.interfaces]
        exact List.mem_map_of_mem _ hxf.1
    · intro hmem hnil
      obtain ⟨b, hb, hbm⟩ := List.mem_map.mp hmem
      rw [← List.enum_map_snd a.interfaces] at hb
      obtain ⟨q, hq, rfl⟩ := List.mem_map.mp hb
      have hqmem : q ∈ (a.interfaces.enum.filter
          fun p => p.2.wazero_module_name = m) :=
        List.mem_filter.mpr ⟨hq, by simpa using hbm⟩
      rw [hnil] at hqmem
      exact absurd hqmem (List.not_mem_nil q)
  rw [hmain, ← hiff]
  rcases hcase : (a.interfaces.enum.filter
      fun p => p.2.wazero_module_name = m) with _ | ⟨x, xs⟩
  · rw [hcase]
    simp
  · rw [hcase]
    obtain ⟨y, hy⟩ := Option.isSome_iff_exists.mp
      (List.getLast?_isSome.mpr (List.cons_ne_nil x xs))
    rw [hy]
    simp only [Option.elim]
    constructor
    · intro _; exact List.cons_ne_nil x xs
    · intro _; exact Option.some_ne_none _

/-- The interface ids among a world-item list, in declaration order. -/
def interfaceIdsOf (items : List (String × WorldItem)) : List Nat :=
  items.filterMap fun p =>
    match p.2 with
    | .interfaceItem id => some id
    | _ => none

/-- The world loop collects the analyzed interfaces in exactly the
declaration order of the world's interface imports. -/
theorem analyzeLoop_interfaces_order (r : Resolve) (w : World) :
    ∀ (items : List (String × WorldItem))
      (is : List AnalyzedInterface) (ts : List AnalyzedType)
      (fs : List AnalyzedFunction),
      ImportAnalyzer.analyzeLoop r w items = .ok (is, ts, fs) →
      List.Forall₂ (fun id ai =>
        ImportAnalyzer.analyze_interface r w id = .ok ai)
        (interfaceIdsOf items) is := by
  intro items
  induction items with
  | nil =>
    intro is ts fs h
    simp only [ImportAnalyzer.analyzeLoop, Except.ok.injEq,
      Prod.mk.injEq] at h
    obtain ⟨rfl, rfl, rfl⟩ := h
    exact List.Forall₂.nil
  | cons hd tl ih =>
    intro is ts fs h
    obtain ⟨key, item⟩ := hd
    cases item with
    | interfaceItem id =>
      simp only [ImportAnalyzer.analyzeLoop] at h
      cases hai : ImportAnalyzer.analyze_interface r w id with
      | error e => rw [hai] at h; exact Except.noConfusion h
      | ok ai =>
        rw [hai] at h
        cases hl : ImportAnalyzer.analyzeLoop r w tl with
        | error e => rw [hl] at h; exact Except.noConfusion h
        | ok triple =>
          obtain ⟨is', ts', fs'⟩ := triple
          rw [hl] at h
          simp only [Except.ok.injEq, Prod.mk.injEq] at h
          obtain ⟨rfl, rfl, rfl⟩ := h
          exact List.Forall₂.cons hai (ih is' ts' fs' hl)
    | typeItem id =>
      simp only [ImportAnalyzer.analyzeLoop] at h
      cases hti : ImportAnalyzer.analyze_type r id with
      | error e => rw [hti] at h; exact Except.noConfusion h
      | ok t? =>
        rw [hti] at h
        cases hl : ImportAnalyzer.analyzeLoop r w tl with
        | error e => rw [hl] at h; exact Except.noConfusion h
        | ok triple =>
          obtain ⟨is', ts', fs'⟩ := triple
          rw [hl] at h
          simp only [Except.ok.injEq, Prod.mk.injEq] at h
          obtain ⟨rfl, rfl, rfl⟩ := h
          exact ih is' ts' fs' hl
    | functionItem f =>
      simp only [ImportAnalyzer.analyzeLoop] at h
      cases hl : ImportAnalyzer.analyzeLoop r w tl with
      | error e => rw [hl] at h; exact Except.noConfusion h
      | ok triple =>
        obtain ⟨is', ts', fs'⟩ := triple
        rw [hl] at h
        simp only [Except.ok.injEq, Prod.mk.injEq] at h
        obtain ⟨rfl, rfl, rfl⟩ := h
        exact ih is' ts' fs' hl

/-- C8: import analysis and chain generation are deterministic — equal
inputs give equal outputs, the generator being a pure function of its
input — and declaration-order stable: the analyzed interfaces
correspond one-to-one, in order, to the world's interface imports; an
interface's analyzed methods carry the source functions' names in
declaration order; record fields and enum cases are carried through in
their declared order. -/
theorem c8_deterministic_declaration_order (r r' : Resolve) (w w' : World)
    (hr : r = r') (hw : w = w') :
    (ImportAnalyzer.analyze r w = ImportAnalyzer.analyze r' w'
      ∧ ∀ a, ImportCodeGenerator.import_chains a =
          ImportCodeGenerator.import_chains a)
    ∧ (∀ a, ImportAnalyzer.analyze r w = .ok a →
        List.Forall₂ (fun id ai =>
          ImportAnalyzer.analyze_interface r w id = .ok ai)
          (interfaceIdsOf w.imports) a.interfaces)
    ∧ (∀ iid iface ai, r.interfaces[iid]? = some iface →
        ImportAnalyzer.analyze_interface r w iid = .ok ai →
        ai.methods.map (·.name) =
          iface.functions.map (fun p => p.2.name))
    ∧ (∀ fields, ImportAnalyzer.analyze_type_definition r (.record fields) =
        .ok (some (.record (fields.map fun f =>
          (GoIdentifier.public f.1, resolve_type f.2 r)))))
    ∧ (∀ cases, ImportAnalyzer.analyze_type_definition r (.enum cases) =
        .ok (some (.enum cases))) := by
  subst hr hw
  refine ⟨⟨rfl, fun _ => rfl⟩, ?_, ?_, fun _ => rfl, fun _ => rfl⟩
  · intro a ha
    unfold ImportAnalyzer.analyze at ha
    cases hl : ImportAnalyzer.analyzeLoop r w w.imports with
    | error e => rw [hl] at ha; exact Except.noConfusion ha
    | ok triple =>
      obtain ⟨is, ts, fs⟩ := triple
      rw [hl] at ha
      cases ha
      exact analyzeLoop_interfaces_order r w w.imports is ts fs hl
  · intro iid iface ai hi hok
    unfold ImportAnalyzer.analyze_interface at hok
    simp only [hi] at hok
    cases hn : iface.name with
    | none => simp only [hn] at hok; exact Except.noConfusion hok
    | some nm =>
      simp only [hn] at hok
      cases ht : ImportAnalyzer.analyzeTypes r iface.types with
      | error e => simp only [ht] at hok; exact Except.noConfusion hok
      | ok types =>
        simp only [ht] at hok
        cases hm : ImportAnalyzer.wazeroModuleNameOf r iface nm with
        | error e => simp only [hm] at hok; exact Except.noConfusion hok
        | ok mn =>
          simp only [hm] at hok
          cases hok
          rw [List.map_map]
          rfl

/-- The `logger` fixture of the analyzer tests (imports.rs 929-1014):
a packaged interface with one `log(message: string)` function,
imported by `test-world`. -/
def loggerResolve : Resolve :=
  ⟨[⟨some "logger", some 0,
      [("log", ⟨"log", [⟨"message", .string⟩], none⟩)], []⟩],
    [], [⟨⟨"test", "pkg", none⟩⟩]⟩

/-- The world importing the `logger` fixture. -/
def loggerWorld : World :=
  ⟨"test-world", [("logger", .interfaceItem 0)]⟩

/-- The IR the analyzer produces for the `logger` fixture. -/
def loggerAnalyzed : AnalyzedImports :=
  { interfaces :=
      [{ name := "logger"
         methods :=
           [{ name := "log"
              go_method_name := GoIdentifier.public "log"
              parameters :=
                [{ name := GoIdentifier.private' "message"
                   go_type := GoType.string
                   wit_type := .string }]
              return_type := none
              wit_function := ⟨"log", [⟨"message", .string⟩], none⟩ }]
         types := []
         constructor_param_name := GoIdentifier.private' "logger"
         go_interface_name := GoIdentifier.public "i-test-world-logger"
         wazero_module_name := "test:pkg/logger" }]
    standalone_types := []
    standalone_functions := []
    factory_name := GoIdentifier.public "test-world-factory"
    instance_name := GoIdentifier.public "test-world-instance"
    constructor_name := GoIdentifier.public "new-test-world-factory" }

/-- C8 witness: on the `logger` fixture the analyzed interfaces
correspond in order to the declared interface imports. -/
theorem c8_deterministic_declaration_order_witness :
    List.Forall₂ (fun id ai =>
      ImportAnalyzer.analyze_interface loggerResolve loggerWorld id = .ok ai)
      (interfaceIdsOf loggerWorld.imports) loggerAnalyzed.interfaces :=
  (c8_deterministic_declaration_order loggerResolve loggerResolve
    loggerWorld loggerWorld rfl rfl).2.1 loggerAnalyzed (by decide)

/-- The type-definition kinds whose analysis never reaches an
unimplemented branch: `Record`, `Enum`, `Variant`, `Type(String)` and
`Type(Type::Id)`. -/
def analyzableKind : TypeDefKind → Bool
  | .record _ => true
  | .enum _ => true
  | .variant _ => true
  | .typeAlias .string => true
  | .typeAlias (.id _) => true
  | _ => false

/-- A type-arena reference fit for analysis: present, named, of an
implemented kind. -/
def typeOkForAnalysis (r : Resolve) (tid : Nat) : Prop :=
  ∃ td, r.types[tid]? = some td ∧ td.name.isSome = true
    ∧ analyzableKind td.kind = true

/-- Analysis of an implemented kind never panics. -/
theorem analyze_type_definition_ok (r : Resolve) (k : TypeDefKind)
    (h : analyzableKind k = true) :
    ∃ d?, ImportAnalyzer.analyze_type_definition r k = .ok d? := by
  cases k
  case typeAlias t =>
    cases t <;> first
      | exact ⟨_, rfl⟩
      | exact absurd h (by simp [analyzableKind])
  all_goals first
    | exact ⟨_, rfl⟩
    | exact absurd h (by simp [analyzableKind])

/-- Analysis of a fit type reference never panics. -/
theorem analyze_type_ok (r : Resolve) (tid : Nat)
    (h : typeOkForAnalysis r tid) :
    ∃ t?, ImportAnalyzer.analyze_type r tid = .ok t? := by
  obtain ⟨td, hget, hname, hkind⟩ := h
  obtain ⟨nm, hn⟩ := Option.isSome_iff_exists.mp hname
  obtain ⟨d?, hd⟩ := analyze_type_definition_ok r td.kind hkind
  unfold ImportAnalyzer.analyze_type
  simp only [hget, hn, hd]
  cases d? with
  | none => exact ⟨none, rfl⟩
  | some d => exact ⟨_, rfl⟩

/-- The interface-type loop never panics on fit type references. -/
theorem analyzeTypes_ok (r : Resolve) :
    ∀ (ts : List (String × Nat)),
      (∀ p ∈ ts, typeOkForAnalysis r p.2) →
      ∃ out, ImportAnalyzer.analyzeTypes r ts = .ok out := by
  intro ts
  induction ts with
  | nil => intro _; exact ⟨[], rfl⟩
  | cons hd tl ih =>
    intro h
    obtain ⟨key, id⟩ := hd
    obtain ⟨t?, ht⟩ := analyze_type_ok r id
      (h (key, id) (List.mem_cons_self _ _))
    obtain ⟨out, ho⟩ := ih (fun p hp => h p (List.mem_cons_of_mem _ hp))
    exact ⟨t?.elim out (· :: out),
      by simp only [ImportAnalyzer.analyzeTypes, ht, ho]⟩

/-- Interface analysis never panics when the interface exists, is
named, its package reference (if any) resolves, and its types are
fit. -/
theorem analyze_interface_ok (r : Resolve) (w : World) (iid : Nat)
    (iface : Interface)
    (hget : r.interfaces[iid]? = some iface)
    (hname : iface.name.isSome = true)
    (hpkg : ∀ pid, iface.package = some pid →
      ∃ p, r.packages[pid]? = some p)
    (htypes : ∀ p ∈ iface.types, typeOkForAnalysis r p.2) :
    ∃ ai, ImportAnalyzer.analyze_interface r w iid = .ok ai := by
  obtain ⟨nm, hn⟩ := Option.isSome_iff_exists.mp hname
  obtain ⟨types, ht⟩ := analyzeTypes_ok r iface.types htypes
  have hmn : ∃ mn, ImportAnalyzer.wazeroModuleNameOf r iface nm = .ok mn := by
    unfold ImportAnalyzer.wazeroModuleNameOf
    cases hp : iface.package with
    | none => exact ⟨nm, rfl⟩
    | some pid =>
      obtain ⟨p, hq⟩ := hpkg pid hp
      dsimp only
      rw [hq]
      exact ⟨_, rfl⟩
  obtain ⟨mn, hmn⟩ := hmn
  unfold ImportAnalyzer.analyze_interface
  simp only [hget, hn, ht, hmn]
  exact ⟨_, rfl⟩

/-- The world-import loop never panics when every interface import is
analyzable and every standalone type reference is fit. -/
theorem analyzeLoop_ok (r : Resolve) (w : World) :
    ∀ (items : List (String × WorldItem)),
      (∀ key id, (key, WorldItem.interfaceItem id) ∈ items →
        ∃ iface, r.interfaces[id]? = some iface
          ∧ iface.name.isSome = true
          ∧ (∀ pid, iface.package = some pid →
              ∃ p, r.packages[pid]? = some p)
          ∧ ∀ p ∈ iface.types, typeOkForAnalysis r p.2) →
      (∀ key tid, (key, WorldItem.typeItem tid) ∈ items →
        typeOkForAnalysis r tid) →
      ∃ out, ImportAnalyzer.analyzeLoop r w items = .ok out := by
  intro items
  induction items with
  | nil => intro _ _; exact ⟨_, rfl⟩
  | cons hd tl ih =>
    intro hI hT
    obtain ⟨key, item⟩ := hd
    obtain ⟨out, ho⟩ := ih
      (fun k i hm => hI k i (List.mem_cons_of_mem _ hm))
      (fun k t hm => hT k t (List.mem_cons_of_mem _ hm))
    obtain ⟨is, ts, fs⟩ := out
    cases item with
    | interfaceItem id =>
      obtain ⟨iface, hget, hname, hpkg, htypes⟩ :=
        hI key id (List.mem_cons_self _ _)
      obtain ⟨ai, hai⟩ :=
        analyze_interface_ok r w id iface hget hname hpkg htypes
      exact ⟨(ai :: is, ts, fs),
        by simp only [ImportAnalyzer.analyzeLoop, hai, ho]⟩
    | typeItem tid =>
      obtain ⟨t?, ht⟩ := analyze_type_ok r tid
        (hT key tid (List.mem_cons_self _ _))
      exact ⟨(is, t?.elim ts (· :: ts), fs),
        by simp only [ImportAnalyzer.analyzeLoop, ht, ho]⟩
    | functionItem f =>
      exact ⟨(is, ts, ImportAnalyzer.analyze_function r f :: fs),
        by simp only [ImportAnalyzer.analyzeLoop, ho]⟩

/-- C9 counterexample: a world whose single imported interface is
named and which contains no type definitions at all — so every
hypothesis of the claim holds — still panics, because the interface's
`package` id dangles: analysis is not total without also assuming the
package references resolve. -/
theorem c9_dangling_package_panics :
    ((⟨[⟨some "logger", some 0, [], []⟩], [], []⟩ : Resolve)).interfaces.all
        (fun i => i.name.isSome) = true
    ∧ (⟨[⟨some "logger", some 0, [], []⟩], [], []⟩ : Resolve).types = []
    ∧ ImportAnalyzer.analyze ⟨[⟨some "logger", some 0, [], []⟩], [], []⟩
        ⟨"w", [("logger", .interfaceItem 0)]⟩ =
      .error ⟨"index out of bounds: packages"⟩ :=
  ⟨rfl, rfl, rfl⟩

/-- C9 (amended): for every world in which each imported interface
exists, carries a name, and has a resolvable package reference (if
any), each referenced named type exists and carries a name, and every
such type definition's kind is one of `Record`, `Enum`, `Variant`,
`Type(String)` or `Type(Type::Id)`, the import analyzer's `analyze` is
total: it returns an `AnalyzedImports` value without reaching any
panic or unimplemented branch. -/
theorem c9_analyze_total (r : Resolve) (w : World)
    (hI : ∀ key id, (key, WorldItem.interfaceItem id) ∈ w.imports →
      ∃ iface, r.interfaces[id]? = some iface
        ∧ iface.name.isSome = true
        ∧ (∀ pid, iface.package = some pid →
            ∃ p, r.packages[pid]? = some p)
        ∧ ∀ p ∈ iface.types, typeOkForAnalysis r p.2)
    (hT : ∀ key tid, (key, WorldItem.typeItem tid) ∈ w.imports →
      typeOkForAnalysis r tid) :
    ∃ a, ImportAnalyzer.analyze r w = .ok a := by
  obtain ⟨out, ho⟩ := analyzeLoop_ok r w w.imports hI hT
  obtain ⟨is, ts, fs⟩ := out
  exact ⟨{ interfaces := is, standalone_types := ts,
           standalone_functions := fs,
           factory_name := GoIdentifier.public (w.name ++ "-factory"),
           instance_name := GoIdentifier.public (w.name ++ "-instance"),
           constructor_name :=
             GoIdentifier.public ("new-" ++ w.name ++ "-factory") },
    by simp only [ImportAnalyzer.analyze, ho]⟩

/-- Whether an analysis run succeeded. -/
def outcomeOk {α : Type} : M α → Bool
  | .ok _ => true
  | .error _ => false

/-- C9 witness: analysis of the `logger` fixture succeeds. -/
theorem c9_analyze_total_witness :
    outcomeOk (ImportAnalyzer.analyze loggerResolve loggerWorld) = true := by
  obtain ⟨a, ha⟩ := c9_analyze_total loggerResolve loggerWorld
    (by
      intro key id hm
      simp only [loggerWorld, List.mem_singleton, Prod.mk.injEq] at hm
      obtain ⟨rfl, hitem⟩ := hm
      obtain rfl : id = 0 := by
        cases hitem
        rfl
      exact ⟨⟨some "logger", some 0,
          [("log", ⟨"log", [⟨"message", .string⟩], none⟩)], []⟩,
        rfl, rfl, fun pid hp => by cases hp; exact ⟨⟨⟨"test", "pkg", none⟩⟩, rfl⟩,
        by intro p hp; exact absurd hp (List.not_mem_nil p)⟩)
    (by
      intro key tid hm
      simp only [loggerWorld, List.mem_singleton, Prod.mk.injEq] at hm
      exact absurd hm.2 (by simp))
  rw [ha]
  rfl

end Gravity
